import Mathlib

/-!
Verification of the k8s-web repository: a shallow embedding of the
OpenAPI spec-merging pipeline, the spec fetcher, the runtime client
shims (configuration, fetch transport, retry and error-translation
interceptors), and the release scripts, together with theorems settling
the testable properties stated in the specification.

JavaScript objects are modelled as association lists `List (String × V)`
preserving insertion order, matching `Object.entries` / `Object.assign`
semantics: assigning an existing key overwrites its value in place,
assigning a new key appends it.
-/

namespace K8sWeb

/-- Keys of a JS object in iteration order. -/
def keys {V : Type} (m : List (String × V)) : List String :=
  m.map Prod.fst

/-- JS property-existence test, the `in` operator. -/
def hasKey {V : Type} : List (String × V) → String → Bool
  | [], _ => false
  | p :: rest, k => p.1 = k || hasKey rest k

/-- JS property lookup `m[k]`, `none` when the key is absent. -/
def getKey {V : Type} : List (String × V) → String → Option V
  | [], _ => none
  | p :: rest, k => if p.1 = k then some p.2 else getKey rest k

/-- Overwrite the value of an existing key in place. -/
def setKey {V : Type} : List (String × V) → String → V → List (String × V)
  | [], _, _ => []
  | p :: rest, k, v => if p.1 = k then (k, v) :: setKey rest k v else p :: setKey rest k v

/-- Assignment `m[k] = v` of a single property, as performed key by key
by `Object.assign`: overwrite in place when present, append otherwise. -/
def assignOne {V : Type} (m : List (String × V)) (kv : String × V) : List (String × V) :=
  if hasKey m kv.1 then setKey m kv.1 kv.2 else m ++ [kv]

/-- JS `Object.assign(target, src)`: copy every own enumerable property of
`src` onto `target`, in `src`'s iteration order. -/
def objAssign {V : Type} (target src : List (String × V)) : List (String × V) :=
  src.foldl assignOne target

/-- A JS object never holds the same key twice. -/
def nodupKeys {V : Type} : List (String × V) → Bool
  | [] => true
  | p :: rest => !hasKey rest p.1 && nodupKeys rest

/-- JS `a || b` on two optional values: `a` wins when present. -/
def jsOrOpt {V : Type} (a b : Option V) : Option V :=
  match a with
  | some v => some v
  | none => b

theorem hasKey_append {V : Type} (a b : List (String × V)) (k : String) :
    hasKey (a ++ b) k = (hasKey a k || hasKey b k) := by
  induction a with
  | nil => simp [hasKey]
  | cons p rest ih => simp [hasKey, ih, Bool.or_assoc]

theorem getKey_append {V : Type} (a b : List (String × V)) (k : String) :
    getKey (a ++ b) k = jsOrOpt (getKey a k) (getKey b k) := by
  induction a with
  | nil => simp [getKey, jsOrOpt]
  | cons p rest ih =>
      by_cases hp : p.1 = k
      · simp [getKey, hp, jsOrOpt]
      · simp [getKey, hp, ih]

theorem getKey_eq_none_of_not_hasKey {V : Type} (m : List (String × V)) (k : String)
    (h : hasKey m k = false) : getKey m k = none := by
  induction m with
  | nil => simp [getKey]
  | cons p rest ih =>
      simp only [hasKey, Bool.or_eq_false_iff] at h
      have hp : ¬p.1 = k := by simpa using h.1
      simp [getKey, hp, ih h.2]

theorem hasKey_setKey {V : Type} (m : List (String × V)) (k k' : String) (v : V) :
    hasKey (setKey m k v) k' = hasKey m k' := by
  induction m with
  | nil => simp [setKey]
  | cons p rest ih =>
      by_cases hp : p.1 = k
      · simp [setKey, hp, hasKey, ih]
      · simp [setKey, hp, hasKey, ih]

theorem keys_setKey {V : Type} (m : List (String × V)) (k : String) (v : V) :
    keys (setKey m k v) = keys m := by
  induction m with
  | nil => simp [setKey]
  | cons p rest ih =>
      by_cases hp : p.1 = k
      · subst hp
        simp only [setKey, if_pos rfl, keys, List.map_cons]
        exact congrArg (List.cons p.1) ih
      · simp only [setKey, if_neg hp, keys, List.map_cons]
        exact congrArg (List.cons p.1) ih

theorem getKey_setKey_self {V : Type} (m : List (String × V)) (k : String) (v : V)
    (h : hasKey m k = true) : getKey (setKey m k v) k = some v := by
  induction m with
  | nil => simp [hasKey] at h
  | cons p rest ih =>
      by_cases hp : p.1 = k
      · simp [setKey, hp, getKey]
      · simp only [hasKey, Bool.or_eq_true] at h
        rcases h with h1 | h2
        · exact absurd (by simpa using h1) hp
        · simp [setKey, hp, getKey, ih h2]

theorem getKey_setKey_ne {V : Type} (m : List (String × V)) (k k' : String) (v : V)
    (h : k' ≠ k) : getKey (setKey m k v) k' = getKey m k' := by
  induction m with
  | nil => simp [setKey]
  | cons p rest ih =>
      by_cases hp : p.1 = k
      · have h1 : ¬k = k' := fun hEq => h hEq.symm
        have h2 : ¬p.1 = k' := by rw [hp]; exact h1
        simp only [setKey, if_pos hp, getKey, if_neg h1, if_neg h2]
        exact ih
      · by_cases hpk : p.1 = k'
        · simp only [setKey, if_neg hp, getKey, if_pos hpk]
        · simp only [setKey, if_neg hp, getKey, if_neg hpk]
          exact ih

theorem nodupKeys_setKey {V : Type} (m : List (String × V)) (k : String) (v : V)
    (h : nodupKeys m = true) : nodupKeys (setKey m k v) = true := by
  induction m with
  | nil => simpa [setKey] using h
  | cons p rest ih =>
      simp only [nodupKeys, Bool.and_eq_true, Bool.not_eq_true'] at h
      by_cases hp : p.1 = k
      · simp only [setKey, if_pos hp, nodupKeys, Bool.and_eq_true, Bool.not_eq_true']
        refine ⟨?_, ih h.2⟩
        rw [hasKey_setKey, ← hp]
        exact h.1
      · simp only [setKey, if_neg hp, nodupKeys, Bool.and_eq_true, Bool.not_eq_true']
        refine ⟨?_, ih h.2⟩
        rw [hasKey_setKey]
        exact h.1

theorem getKey_assignOne_self {V : Type} (m : List (String × V)) (kv : String × V) :
    getKey (assignOne m kv) kv.1 = some kv.2 := by
  unfold assignOne
  by_cases h : hasKey m kv.1
  · rw [if_pos h]
    exact getKey_setKey_self m kv.1 kv.2 h
  · rw [if_neg h]
    rw [getKey_append, getKey_eq_none_of_not_hasKey m kv.1 (by simpa using h)]
    simp [getKey, jsOrOpt]

theorem getKey_assignOne_ne {V : Type} (m : List (String × V)) (kv : String × V)
    (k : String) (hk : k ≠ kv.1) : getKey (assignOne m kv) k = getKey m k := by
  unfold assignOne
  by_cases h : hasKey m kv.1
  · rw [if_pos h]
    exact getKey_setKey_ne m kv.1 k kv.2 hk
  · rw [if_neg h]
    rw [getKey_append]
    have hnone : getKey [kv] k = none := by
      simp only [getKey]
      rw [if_neg (fun hEq => hk hEq.symm)]
    rw [hnone]
    cases getKey m k <;> simp [jsOrOpt]

theorem hasKey_assignOne {V : Type} (m : List (String × V)) (kv : String × V) (k : String) :
    hasKey (assignOne m kv) k = (hasKey m k || kv.1 = k) := by
  unfold assignOne
  by_cases h : hasKey m kv.1
  · rw [if_pos h, hasKey_setKey]
    by_cases hk : kv.1 = k
    · subst hk; simp [h]
    · simp [hk]
  · rw [if_neg h, hasKey_append]
    simp [hasKey]

theorem nodupKeys_append_single {V : Type} (m : List (String × V)) (kv : String × V)
    (h : nodupKeys m = true) (hc : hasKey m kv.1 = false) :
    nodupKeys (m ++ [kv]) = true := by
  induction m with
  | nil => simp [nodupKeys, hasKey]
  | cons p rest ih =>
      simp only [nodupKeys, Bool.and_eq_true, Bool.not_eq_true'] at h
      simp only [hasKey, Bool.or_eq_false_iff, decide_eq_false_iff_not] at hc
      simp only [List.cons_append, nodupKeys, Bool.and_eq_true, Bool.not_eq_true']
      refine ⟨?_, ih h.2 hc.2⟩
      show hasKey (rest ++ [kv]) p.1 = false
      rw [hasKey_append]
      simp only [hasKey, Bool.or_eq_false_iff, decide_eq_false_iff_not]
      exact ⟨h.1, fun hEq => hc.1 hEq.symm, trivial⟩

theorem nodupKeys_assignOne {V : Type} (m : List (String × V)) (kv : String × V)
    (h : nodupKeys m = true) : nodupKeys (assignOne m kv) = true := by
  unfold assignOne
  by_cases hc : hasKey m kv.1
  · rw [if_pos hc]
    exact nodupKeys_setKey m kv.1 kv.2 h
  · rw [if_neg hc]
    exact nodupKeys_append_single m kv h (by simpa using hc)

theorem nodupKeys_objAssign {V : Type} (target src : List (String × V))
    (h : nodupKeys target = true) : nodupKeys (objAssign target src) = true := by
  induction src generalizing target with
  | nil => simpa [objAssign] using h
  | cons kv rest ih =>
      exact ih (assignOne target kv) (nodupKeys_assignOne target kv h)

/-- Resolution of a key after a whole `Object.assign`: the source wins
wherever it defines the key (for sources with duplicate-free keys, as
JS objects always are). -/
theorem getKey_objAssign {V : Type} (target src : List (String × V)) (k : String)
    (h : nodupKeys src = true) :
    getKey (objAssign target src) k = jsOrOpt (getKey src k) (getKey target k) := by
  induction src generalizing target with
  | nil => simp [objAssign, getKey, jsOrOpt]
  | cons kv rest ih =>
      simp only [nodupKeys, Bool.and_eq_true, Bool.not_eq_true'] at h
      have step : objAssign target (kv :: rest) = objAssign (assignOne target kv) rest := rfl
      rw [step, ih (assignOne target kv) h.2]
      by_cases hk : k = kv.1
      · subst hk
        rw [getKey_eq_none_of_not_hasKey rest kv.1 h.1, getKey_assignOne_self]
        simp [getKey, jsOrOpt]
      · rw [getKey_assignOne_ne target kv k hk]
        have hne : getKey (kv :: rest) k = getKey rest k := by
          simp only [getKey]
          rw [if_neg (fun hEq => hk hEq.symm)]
        rw [hne]

/-- In the disjoint case `Object.assign` appends the whole source. -/
theorem objAssign_disjoint {V : Type} (target src : List (String × V))
    (hnd : nodupKeys src = true)
    (h : ∀ k, hasKey src k = true → hasKey target k = false) :
    objAssign target src = target ++ src := by
  induction src generalizing target with
  | nil => simp [objAssign]
  | cons kv rest ih =>
      simp only [nodupKeys, Bool.and_eq_true, Bool.not_eq_true'] at hnd
      have hkv : hasKey target kv.1 = false :=
        h kv.1 (by simp [hasKey])
      have hA : assignOne target kv = target ++ [kv] := by
        unfold assignOne
        rw [if_neg (by simp [hkv])]
      have hdisj : ∀ k, hasKey rest k = true → hasKey (target ++ [kv]) k = false := by
        intro k hk
        rw [hasKey_append]
        have h1 : hasKey target k = false := h k (by simp [hasKey, hk])
        have h2 : hasKey [kv] k = false := by
          simp only [hasKey, Bool.or_eq_false_iff, decide_eq_false_iff_not]
          refine ⟨?_, trivial⟩
          intro hEq
          rw [hEq] at hnd
          exact absurd hk (by simp [hnd.1])
        simp [h1, h2]
      have step : objAssign target (kv :: rest) = objAssign (assignOne target kv) rest := rfl
      rw [step, hA, ih (target ++ [kv]) hnd.2 hdisj]
      simp

theorem hasKey_iff_mem_keys {V : Type} (m : List (String × V)) (k : String) :
    hasKey m k = true ↔ k ∈ keys m := by
  induction m with
  | nil => simp [hasKey, keys]
  | cons p rest ih =>
      simp only [hasKey, Bool.or_eq_true, decide_eq_true_eq, keys, List.map_cons,
        List.mem_cons, ih]
      constructor
      · rintro (h1 | h2)
        · exact Or.inl h1.symm
        · exact Or.inr (by simpa [keys] using h2)
      · rintro (h1 | h2)
        · exact Or.inl h1.symm
        · exact Or.inr (by simpa [keys] using h2)

theorem keys_append {V : Type} (a b : List (String × V)) :
    keys (a ++ b) = keys a ++ keys b := by
  simp [keys]

theorem jsOrOpt_assoc {V : Type} (a b c : Option V) :
    jsOrOpt a (jsOrOpt b c) = jsOrOpt (jsOrOpt a b) c := by
  cases a <;> cases b <;> simp [jsOrOpt]

/-! ## The spec merger (`mergeOpenAPISpecs`, `src/common/src/generate-utils.ts`)

An input OpenAPI document as parsed from `openapi-specs/<group>.json`.
Leaf JSON values are abstracted by the type parameter `V`.  An `Option`
field with value `none` models an absent (`undefined`) JS property;
`some` models a present one.  Present objects and arrays are always
truthy in JS (`{}` and `[]` included), which the embedding relies on
when translating the source's truthiness tests on `spec.paths`,
`spec.components`, `spec.components?.schemas` and `spec.servers`. -/

structure OASpec (V : Type) where
  paths : Option (List (String × V))
  components : Option (List (String × List (String × V)))
  servers : Option V

/-- The merged OpenAPI document accumulated by `mergeOpenAPISpecs`. -/
structure MergedSpec (V : Type) where
  openapi : String
  infoTitle : String
  infoVersion : String
  paths : List (String × V)
  components : List (String × List (String × V))
  servers : Option V

/-- The initial `mergedSpec` literal of `mergeOpenAPISpecs`:
`{openapi: '3.0.0', info: {...}, paths: {}, components: {schemas: {}}}`. -/
def emptyMergedSpec {V : Type} : MergedSpec V :=
  { openapi := "3.0.0"
    infoTitle := "Kubernetes API"
    infoVersion := "1.0.0"
    paths := []
    components := [("schemas", [])]
    servers := none }

/-- The statement `if (spec.paths) Object.assign(mergedSpec.paths, spec.paths)`. -/
def mergePathsStep {V : Type} (acc : MergedSpec V) (spec : OASpec V) : MergedSpec V :=
  match spec.paths with
  | none => acc
  | some p => { acc with paths := objAssign acc.paths p }

/-- The statement `if (spec.components?.schemas)
      Object.assign(mergedSpec.components.schemas, spec.components.schemas)`. -/
def mergeSchemasStep {V : Type} (acc : MergedSpec V) (spec : OASpec V) : MergedSpec V :=
  match spec.components.bind (fun cs => getKey cs "schemas") with
  | none => acc
  | some sch =>
      { acc with
        components :=
          setKey acc.components "schemas"
            (objAssign ((getKey acc.components "schemas").getD []) sch) }

/-- The body of the loop over `Object.entries(spec.components)` for one
non-`schemas` component type: initialise
`mergedSpec.components[componentType]` to `{}` when absent, then
`Object.assign` the spec's components onto it. -/
def assignComponentType {V : Type} (m : List (String × List (String × V)))
    (ct : String) (comps : List (String × V)) : List (String × List (String × V)) :=
  let m' := if hasKey m ct then m else m ++ [(ct, [])]
  setKey m' ct (objAssign ((getKey m' ct).getD []) comps)

/-- The loop `if (spec.components) for ([componentType, components] of
Object.entries(spec.components)) if (componentType !== 'schemas') ...`. -/
def mergeOtherComponentsStep {V : Type} (acc : MergedSpec V) (spec : OASpec V) :
    MergedSpec V :=
  match spec.components with
  | none => acc
  | some cs =>
      { acc with
        components :=
          cs.foldl
            (fun a p => if p.1 = "schemas" then a else assignComponentType a p.1 p.2)
            acc.components }

/-- The statement `if (!mergedSpec.servers && spec.servers) mergedSpec.servers = spec.servers`. -/
def mergeServersStep {V : Type} (acc : MergedSpec V) (spec : OASpec V) : MergedSpec V :=
  match acc.servers, spec.servers with
  | none, some sv => { acc with servers := some sv }
  | _, _ => acc

/-- One iteration of the `for (const specFile of specFiles)` loop of
`mergeOpenAPISpecs`, in source order: paths, schemas, other component
types, servers. -/
def mergeOne {V : Type} (acc : MergedSpec V) (spec : OASpec V) : MergedSpec V :=
  mergeServersStep (mergeOtherComponentsStep (mergeSchemasStep (mergePathsStep acc spec) spec) spec) spec

/-- The function `mergeOpenAPISpecs(specFiles, specsDir)` with file reading and JSON
parsing abstracted: the input is the list of parsed spec documents in
`specFiles` order. -/
def mergeOpenAPISpecs {V : Type} (specs : List (OASpec V)) : MergedSpec V :=
  specs.foldl mergeOne emptyMergedSpec

theorem mergeSchemasStep_paths {V : Type} (acc : MergedSpec V) (spec : OASpec V) :
    (mergeSchemasStep acc spec).paths = acc.paths := by
  unfold mergeSchemasStep
  cases spec.components.bind (fun cs => getKey cs "schemas") <;> rfl

theorem mergeOtherComponentsStep_paths {V : Type} (acc : MergedSpec V) (spec : OASpec V) :
    (mergeOtherComponentsStep acc spec).paths = acc.paths := by
  unfold mergeOtherComponentsStep
  cases spec.components <;> rfl

theorem mergeServersStep_paths {V : Type} (acc : MergedSpec V) (spec : OASpec V) :
    (mergeServersStep acc spec).paths = acc.paths := by
  unfold mergeServersStep
  cases h : acc.servers <;> cases spec.servers <;> rfl

theorem mergePathsStep_servers {V : Type} (acc : MergedSpec V) (spec : OASpec V) :
    (mergePathsStep acc spec).servers = acc.servers := by
  unfold mergePathsStep
  cases spec.paths <;> rfl

theorem mergeSchemasStep_servers {V : Type} (acc : MergedSpec V) (spec : OASpec V) :
    (mergeSchemasStep acc spec).servers = acc.servers := by
  unfold mergeSchemasStep
  cases spec.components.bind (fun cs => getKey cs "schemas") <;> rfl

theorem mergeOtherComponentsStep_servers {V : Type} (acc : MergedSpec V) (spec : OASpec V) :
    (mergeOtherComponentsStep acc spec).servers = acc.servers := by
  unfold mergeOtherComponentsStep
  cases spec.components <;> rfl

theorem mergeServersStep_servers {V : Type} (acc : MergedSpec V) (spec : OASpec V) :
    (mergeServersStep acc spec).servers = jsOrOpt acc.servers spec.servers := by
  unfold mergeServersStep
  cases h : acc.servers <;> cases hs : spec.servers <;> simp [h, hs, jsOrOpt]

theorem mergeOne_paths {V : Type} (acc : MergedSpec V) (spec : OASpec V) :
    (mergeOne acc spec).paths =
      (match spec.paths with
       | none => acc.paths
       | some p => objAssign acc.paths p) := by
  unfold mergeOne
  rw [mergeServersStep_paths, mergeOtherComponentsStep_paths, mergeSchemasStep_paths]
  unfold mergePathsStep
  cases spec.paths <;> rfl

theorem mergeOne_servers {V : Type} (acc : MergedSpec V) (spec : OASpec V) :
    (mergeOne acc spec).servers = jsOrOpt acc.servers spec.servers := by
  unfold mergeOne
  rw [mergeServersStep_servers, mergeOtherComponentsStep_servers, mergeSchemasStep_servers,
    mergePathsStep_servers]

/-- The effect of one spec document on the accumulated `paths` object. -/
def pathsStep {V : Type} (a : List (String × V)) (d : OASpec V) : List (String × V) :=
  match d.paths with
  | none => a
  | some p => objAssign a p

/-- The `paths` accumulation of the merge loop, in isolation. -/
def foldPaths {V : Type} (acc : List (String × V)) (specs : List (OASpec V)) :
    List (String × V) :=
  specs.foldl pathsStep acc

theorem mergeFold_paths {V : Type} (specs : List (OASpec V)) (acc : MergedSpec V) :
    (specs.foldl mergeOne acc).paths = foldPaths acc.paths specs := by
  induction specs generalizing acc with
  | nil => rfl
  | cons d rest ih =>
      show ((rest.foldl mergeOne (mergeOne acc d))).paths = _
      rw [ih (mergeOne acc d), mergeOne_paths]
      rfl

theorem mergeOpenAPISpecs_paths {V : Type} (specs : List (OASpec V)) :
    (mergeOpenAPISpecs specs).paths = foldPaths [] specs := by
  unfold mergeOpenAPISpecs
  rw [mergeFold_paths]
  rfl

theorem nodupKeys_foldPaths {V : Type} (specs : List (OASpec V))
    (acc : List (String × V)) (h : nodupKeys acc = true) :
    nodupKeys (foldPaths acc specs) = true := by
  induction specs generalizing acc with
  | nil => simpa [foldPaths] using h
  | cons d rest ih =>
      show nodupKeys (foldPaths (match d.paths with
        | none => acc
        | some p => objAssign acc p) rest) = true
      apply ih
      cases d.paths with
      | none => exact h
      | some p => exact nodupKeys_objAssign acc p h

/-- The path definition that survives the merge for a key `k`: the
later document wins; a document with no `paths` block contributes
nothing. -/
def lastPathDef {V : Type} : List (OASpec V) → String → Option V
  | [], _ => none
  | d :: rest, k => jsOrOpt (lastPathDef rest k) (getKey (d.paths.getD []) k)

theorem foldPaths_getKey {V : Type} (specs : List (OASpec V))
    (acc : List (String × V)) (k : String)
    (h : ∀ d ∈ specs, nodupKeys (d.paths.getD []) = true) :
    getKey (foldPaths acc specs) k = jsOrOpt (lastPathDef specs k) (getKey acc k) := by
  induction specs generalizing acc with
  | nil => simp [foldPaths, lastPathDef, jsOrOpt]
  | cons d rest ih =>
      have hd : nodupKeys (d.paths.getD []) = true := h d (by simp)
      have hrest : ∀ d' ∈ rest, nodupKeys (d'.paths.getD []) = true :=
        fun d' hd' => h d' (by simp [hd'])
      show getKey (foldPaths (match d.paths with
        | none => acc
        | some p => objAssign acc p) rest) k = _
      rw [ih _ hrest]
      show _ = jsOrOpt (jsOrOpt (lastPathDef rest k) (getKey (d.paths.getD []) k)) (getKey acc k)
      rw [← jsOrOpt_assoc]
      cases hp : d.paths with
      | none => simp [hp, getKey, jsOrOpt]
      | some p =>
          rw [getKey_objAssign acc p k (by simpa [hp] using hd)]
          simp [hp]

theorem jsOrOpt_none_right {V : Type} (a : Option V) : jsOrOpt a none = a := by
  cases a <;> rfl

theorem lastPathDef_append {V : Type} (xs ys : List (OASpec V)) (k : String) :
    lastPathDef (xs ++ ys) k = jsOrOpt (lastPathDef ys k) (lastPathDef xs k) := by
  induction xs with
  | nil =>
      show lastPathDef ys k = jsOrOpt (lastPathDef ys k) none
      rw [jsOrOpt_none_right]
  | cons d rest ih =>
      show jsOrOpt (lastPathDef (rest ++ ys) k) (getKey (d.paths.getD []) k) =
        jsOrOpt (lastPathDef ys k)
          (jsOrOpt (lastPathDef rest k) (getKey (d.paths.getD []) k))
      rw [ih, jsOrOpt_assoc]

theorem lastPathDef_none_of_all_none {V : Type} (specs : List (OASpec V)) (k : String)
    (h : ∀ d ∈ specs, getKey (d.paths.getD []) k = none) :
    lastPathDef specs k = none := by
  induction specs with
  | nil => rfl
  | cons d rest ih =>
      have h1 : getKey (d.paths.getD []) k = none := h d (by simp)
      have h2 : lastPathDef rest k = none :=
        ih (fun d' hd' => h d' (by simp [hd']))
      simp [lastPathDef, h1, h2, jsOrOpt]

/-- C1: for every two OpenAPI documents whose sets of path keys are
disjoint, merging them with `mergeOpenAPISpecs` yields a merged document
whose number of path keys equals the sum of the two inputs' path-key
counts. -/
theorem mergeOpenAPISpecs_disjoint_path_count {V : Type} (d1 d2 : OASpec V)
    (hnd1 : nodupKeys (d1.paths.getD []) = true)
    (hnd2 : nodupKeys (d2.paths.getD []) = true)
    (hdisj : ∀ k ∈ keys (d1.paths.getD []), hasKey (d2.paths.getD []) k = false) :
    (keys (mergeOpenAPISpecs [d1, d2]).paths).length =
      (keys (d1.paths.getD [])).length + (keys (d2.paths.getD [])).length := by
  rw [mergeOpenAPISpecs_paths]
  have e : foldPaths [] [d1, d2] = pathsStep (pathsStep [] d1) d2 := rfl
  rw [e]
  have e1 : pathsStep [] d1 = d1.paths.getD [] := by
    cases hp : d1.paths with
    | none => simp [pathsStep, hp]
    | some p =>
        simp only [pathsStep, hp, Option.getD_some]
        have := objAssign_disjoint [] p (by simpa [hp] using hnd1) (fun k _ => rfl)
        simpa using this
  rw [e1]
  have e2 : pathsStep (d1.paths.getD []) d2 = d1.paths.getD [] ++ d2.paths.getD [] := by
    cases hp : d2.paths with
    | none => simp [pathsStep, hp]
    | some p =>
        simp only [pathsStep, hp, Option.getD_some]
        apply objAssign_disjoint
        · simpa [hp] using hnd2
        · intro k hk
          by_cases hmem : k ∈ keys (d1.paths.getD [])
          · have hf := hdisj k hmem
            rw [hp] at hf
            simp only [Option.getD_some] at hf
            rw [hf] at hk
            exact absurd hk (by decide)
          · cases hh : hasKey (d1.paths.getD []) k
            · rfl
            · exact absurd ((hasKey_iff_mem_keys _ k).mp hh) hmem
  rw [e2, keys_append, List.length_append]

/-- Witness for C1 at two concrete single-path documents with disjoint
path keys. -/
theorem mergeOpenAPISpecs_disjoint_path_count_witness :
    (keys (mergeOpenAPISpecs
        [(⟨some [("/a", 1)], none, none⟩ : OASpec Nat),
         ⟨some [("/b", 2)], none, none⟩]).paths).length =
      (keys (((⟨some [("/a", 1)], none, none⟩ : OASpec Nat)).paths.getD [])).length +
      (keys (((⟨some [("/b", 2)], none, none⟩ : OASpec Nat)).paths.getD [])).length :=
  mergeOpenAPISpecs_disjoint_path_count _ _ (by decide) (by decide) (by decide)

/-- C2: merging is last-write-wins per path key: the merged document has
at most one entry per key, the surviving value at a key is the later
(by iteration order) defining document's value, and a document's path
entry survives whenever no later document defines its key. -/
theorem mergeOpenAPISpecs_last_write_wins {V : Type} (specs : List (OASpec V))
    (h : ∀ d ∈ specs, nodupKeys (d.paths.getD []) = true) :
    nodupKeys (mergeOpenAPISpecs specs).paths = true ∧
    (∀ k, getKey (mergeOpenAPISpecs specs).paths k = lastPathDef specs k) ∧
    (∀ pre d post, specs = pre ++ d :: post →
      ∀ k v, getKey (d.paths.getD []) k = some v →
        (∀ d' ∈ post, getKey (d'.paths.getD []) k = none) →
        getKey (mergeOpenAPISpecs specs).paths k = some v) := by
  refine ⟨?_, ?_, ?_⟩
  · rw [mergeOpenAPISpecs_paths]
    exact nodupKeys_foldPaths specs [] rfl
  · intro k
    rw [mergeOpenAPISpecs_paths, foldPaths_getKey specs [] k h]
    show jsOrOpt (lastPathDef specs k) none = lastPathDef specs k
    exact jsOrOpt_none_right _
  · intro pre d post hspec k v hv hnone
    subst hspec
    rw [mergeOpenAPISpecs_paths, foldPaths_getKey _ [] k h, lastPathDef_append]
    have h1 : lastPathDef post k = none := lastPathDef_none_of_all_none post k hnone
    show jsOrOpt
        (jsOrOpt (jsOrOpt (lastPathDef post k) (getKey (d.paths.getD []) k))
          (lastPathDef pre k))
        (getKey ([] : List (String × V)) k) = some v
    rw [h1, hv]
    rfl

/-- Witness for C2 at two concrete documents that both define the path
key `/p`: the merged value at `/p` is the later document's. -/
theorem mergeOpenAPISpecs_last_write_wins_witness :
    getKey (mergeOpenAPISpecs
        [(⟨some [("/p", 1), ("/q", 2)], none, none⟩ : OASpec Nat),
         ⟨some [("/p", 3)], none, none⟩]).paths "/p" =
      lastPathDef
        [(⟨some [("/p", 1), ("/q", 2)], none, none⟩ : OASpec Nat),
         ⟨some [("/p", 3)], none, none⟩] "/p" :=
  (mergeOpenAPISpecs_last_write_wins _ (by decide)).2.1 "/p"

/-- C3: when the first input document carries a `servers` block, the
merged document's `servers` block equals it. -/
theorem mergeOpenAPISpecs_servers_of_first {V : Type} (d : OASpec V)
    (rest : List (OASpec V)) (sv : V) (h : d.servers = some sv) :
    (mergeOpenAPISpecs (d :: rest)).servers = some sv := by
  have h1 : (mergeOne emptyMergedSpec d).servers = some sv := by
    rw [mergeOne_servers]
    show jsOrOpt (none : Option V) d.servers = some sv
    simp [jsOrOpt, h]
  have h2 : ∀ (specs : List (OASpec V)) (acc : MergedSpec V),
      acc.servers = some sv → (specs.foldl mergeOne acc).servers = some sv := by
    intro specs
    induction specs with
    | nil => intro acc hacc; exact hacc
    | cons d' rest' ih =>
        intro acc hacc
        show (rest'.foldl mergeOne (mergeOne acc d')).servers = some sv
        apply ih
        rw [mergeOne_servers, hacc]
        rfl
  exact h2 rest (mergeOne emptyMergedSpec d) h1

/-- Witness for C3: the first document's `servers` block survives a
merge with a later document that also has one. -/
theorem mergeOpenAPISpecs_servers_of_first_witness :
    (mergeOpenAPISpecs
        [(⟨none, none, some 7⟩ : OASpec Nat), ⟨none, none, some 9⟩]).servers = some 7 :=
  mergeOpenAPISpecs_servers_of_first _ _ _ rfl

/-! ## String helpers

The embedding works over `String.data` (the character list) so that all
definitions reduce inside the kernel. -/

/-- JS `s.startsWith(pre)`. -/
def strStartsWith (s pre : String) : Bool :=
  pre.data.isPrefixOf s.data

/-- Drop the first `n` characters of a string. -/
def strDrop (s : String) (n : Nat) : String :=
  String.mk (s.data.drop n)

/-- JS `s.replace` with a global single-character pattern: replace
every occurrence of `c0` by `c1`. -/
def replaceChar (c0 c1 : Char) (s : String) : String :=
  String.mk (s.data.map (fun c => if c = c0 then c1 else c))

/-! ## The spec fetcher (`fetchSpecs`, root `fetch-specs` script) -/

/-- The function `sanitizeGroupName` of the fetch script: strip a leading `api/` or
`apis/` (the regex `^apis?\//`), then replace every `/` and every `.`
with `-` (two global single-character replacements, in source order). -/
def sanitizeGroupName (groupName : String) : String :=
  let stripped :=
    if strStartsWith groupName "apis/" then strDrop groupName 5
    else if strStartsWith groupName "api/" then strDrop groupName 4
    else groupName
  replaceChar '.' '-' (replaceChar '/' '-' stripped)

/-- The files written by `fetchSpecs`: for each discovery entry
`(pathKey, group)` (in `Object.entries` order) the spec fetched from the
group's `serverRelativeURL` is saved to
`openapi-specs/<sanitizeGroupName(pathKey)>.json` (`path.join` of two
relative segments inserts a single separator).  Fetching itself is
abstracted by `fetchSpec`. -/
def fetchSpecsFiles {V : Type} (discovery : List (String × String))
    (fetchSpec : String → V) : List (String × V) :=
  discovery.map
    (fun g => ("openapi-specs/" ++ sanitizeGroupName g.1 ++ ".json", fetchSpec g.2))

/-- C7: the discovery document with the two group keys `apis/core/v1`
and `apis/apps/v1` produces exactly the sanitized identifiers `core-v1`
and `apps-v1`, and one spec file is written per group. -/
theorem fetchSpecs_two_groups :
    sanitizeGroupName "apis/core/v1" = "core-v1" ∧
    sanitizeGroupName "apis/apps/v1" = "apps-v1" ∧
    (fetchSpecsFiles
        [("apis/core/v1", "/openapi/v3/apis/core/v1"),
         ("apis/apps/v1", "/openapi/v3/apis/apps/v1")]
        (fun u => u)).map Prod.fst =
      ["openapi-specs/core-v1.json", "openapi-specs/apps-v1.json"] ∧
    (fetchSpecsFiles
        [("apis/core/v1", "/openapi/v3/apis/core/v1"),
         ("apis/apps/v1", "/openapi/v3/apis/apps/v1")]
        (fun u => u)).length = 2 := by
  refine ⟨?_, ?_, ?_, ?_⟩ <;> decide

/-! ## Version validation (`src/Makefile`, `src/scripts/update-versions.js`) -/

/-- A decimal digit. -/
def isDigitChar (c : Char) : Bool :=
  ('0' ≤ c) && (c ≤ '9')

/-- The `[0-9]*` continuation of the minor component. -/
def vpMinorRest : List Char → Bool
  | [] => true
  | c :: cs => isDigitChar c && vpMinorRest cs

/-- The minor component, `[0-9]+` up to the end. -/
def vpMinor : List Char → Bool
  | [] => false
  | c :: cs => isDigitChar c && vpMinorRest cs

/-- Continuation of the major component: digits until the single dot. -/
def vpMajorRest : List Char → Bool
  | [] => false
  | c :: cs => if c = '.' then vpMinor cs else isDigitChar c && vpMajorRest cs

/-- Start of the major component: at least one digit. -/
def vpMajor : List Char → Bool
  | [] => false
  | c :: cs => isDigitChar c && vpMajorRest cs

/-- The `MAJOR.MINOR` pattern `^[0-9]+\.[0-9]+$` that the Makefile
build targets test with `grep -qE`: one or more digits, one dot, one or
more digits, and nothing else. -/
def matchesVersionPattern (s : String) : Bool :=
  vpMajor s.data

/-- The Makefile `angular react` target: an absent version argument
(`$(filter-out $@,$(MAKECMDGOALS))` empty) or one failing the pattern
exits 1 before any build step; a matching version runs the pipeline. -/
def frameworkTargetExitCode (version : String) : Nat :=
  if version = "" then 1
  else if matchesVersionPattern version then 0 else 1

/-- The Makefile `%` pattern rule for bare `make <version>`. -/
def versionTargetExitCode (target : String) : Nat :=
  if matchesVersionPattern target then 0 else 1

/-- In `scripts/update-versions.js`, `if (!version)` exits 1, so only a
missing or empty `process.argv[2]` is rejected; any other string is
accepted and stamped into the package versions. -/
def updateVersionsExitCode (argv2 : Option String) : Nat :=
  match argv2 with
  | none => 1
  | some v => if v = "" then 1 else 0

/-- C9 counterexample: the version value `abc` does not match the
`MAJOR.MINOR` pattern, yet the version-bump script (the validator behind
`make update-version`) accepts it with exit code 0. -/
theorem updateVersions_accepts_nonmatching :
    matchesVersionPattern "abc" = false ∧ updateVersionsExitCode (some "abc") = 0 := by
  decide

/-- C9 (amended): the Makefile build targets (`make <version>`,
`make angular <version>`, `make react <version>`) accept a version
argument exactly when it matches the `MAJOR.MINOR` numeric pattern and
exit non-zero otherwise, while the version-bump script rejects only a
missing or empty argument. -/
theorem versionArgument_validation (v : String) :
    (frameworkTargetExitCode v = 0 ↔ matchesVersionPattern v = true) ∧
    (versionTargetExitCode v = 0 ↔ matchesVersionPattern v = true) ∧
    (updateVersionsExitCode (some v) = 0 ↔ v ≠ "") := by
  refine ⟨?_, ?_, ?_⟩
  · by_cases hv : v = ""
    · subst hv
      simp [frameworkTargetExitCode, matchesVersionPattern, vpMajor]
    · by_cases hm : matchesVersionPattern v <;>
        simp [frameworkTargetExitCode, hv, hm]
  · by_cases hm : matchesVersionPattern v <;>
      simp [versionTargetExitCode, hm]
  · by_cases hv : v = ""
    · subst hv
      simp [updateVersionsExitCode]
    · simp [updateVersionsExitCode, hv]

/-! ## The publish script (`scripts/publish.js`) -/

/-- The `name` fields of the two `dist/package.json` files touched by
the publish script. -/
structure PkgNames where
  angularName : String
  reactName : String

/-- The function `renameTok8sWeb(publishAngular, publishReact)`: set each selected
package's name to the shared public name `k8s-web`. -/
def renameTok8sWeb (publishAngular publishReact : Bool) (st : PkgNames) : PkgNames :=
  let st1 := if publishAngular then { st with angularName := "k8s-web" } else st
  if publishReact then { st1 with reactName := "k8s-web" } else st1

/-- The function `revertNames(publishAngular, publishReact)`: restore each selected
package's original name. -/
def revertNames (publishAngular publishReact : Bool) (st : PkgNames) : PkgNames :=
  let st1 := if publishAngular then { st with angularName := "k8s-web-angular" } else st
  if publishReact then { st1 with reactName := "k8s-web-react" } else st1

/-- JS falsiness of the optional `FRAMEWORK` environment variable. -/
def jsFalsyStr (o : Option String) : Bool :=
  match o with
  | none => true
  | some s => s = ""

/-- The selector `const publishAngular = !framework || framework === 'angular'`. -/
def selectAngular (framework : Option String) : Bool :=
  jsFalsyStr framework || framework = some "angular"

/-- The selector `const publishReact = !framework || framework === 'react'`. -/
def selectReact (framework : Option String) : Bool :=
  jsFalsyStr framework || framework = some "react"

/-- One `publish()` run of `scripts/publish.js`.  The two `npm publish`
invocations are abstracted by whether they throw; on the first throw the
`catch` block reverts the names and exits 1, otherwise the success path
reverts the names and finishes with exit 0.  The result carries the
final on-disk package names, the list of package names under which
`npm publish` was attempted (in order), and the process exit code. -/
def publishRun (framework : Option String)
    (angularPublishThrows reactPublishThrows : Bool) (st : PkgNames) :
    PkgNames × List String × Nat :=
  let pa := selectAngular framework
  let pr := selectReact framework
  let st1 := renameTok8sWeb pa pr st
  let attemptsA : List String := if pa then [st1.angularName] else []
  if pa && angularPublishThrows then
    (revertNames pa pr st1, attemptsA, 1)
  else
    let attempts := attemptsA ++ (if pr then [st1.reactName] else [])
    if pr && reactPublishThrows then
      (revertNames pa pr st1, attempts, 1)
    else
      (revertNames pa pr st1, attempts, 0)

/-- C10: starting from the original package names, every `npm publish`
attempt runs under the shared name `k8s-web`, and the original names
(`k8s-web-angular`, `k8s-web-react`) are restored afterwards on the
success path and on every failure path. -/
theorem publishRun_renames_and_reverts (framework : Option String)
    (angularPublishThrows reactPublishThrows : Bool) :
    (∀ n ∈ (publishRun framework angularPublishThrows reactPublishThrows
        ⟨"k8s-web-angular", "k8s-web-react"⟩).2.1, n = "k8s-web") ∧
    (publishRun framework angularPublishThrows reactPublishThrows
        ⟨"k8s-web-angular", "k8s-web-react"⟩).1.angularName = "k8s-web-angular" ∧
    (publishRun framework angularPublishThrows reactPublishThrows
        ⟨"k8s-web-angular", "k8s-web-react"⟩).1.reactName = "k8s-web-react" := by
  cases hpa : selectAngular framework <;>
    cases hpr : selectReact framework <;>
      cases angularPublishThrows <;>
        cases reactPublishThrows <;>
          simp [publishRun, renameTok8sWeb, revertNames, hpa, hpr]

/-! ## React client configuration (`react/src/config.ts`) -/

/-- The module-level `activeConfig` state of the React configuration
holder. -/
structure InternalConfig where
  baseURL : String
  token : String
  headers : List (String × String)
  rejectUnauthorized : Bool
  configured : Bool

/-- JS `o || d` for an optional environment string: the default wins
when the variable is absent or empty (falsy). -/
def jsOrStr (o : Option String) (d : String) : String :=
  match o with
  | none => d
  | some s => if s = "" then d else s

/-- JS `!!o` truthiness of an optional string. -/
def truthyStr (o : Option String) : Bool :=
  match o with
  | none => false
  | some s => s ≠ ""

/-- The module-load initialisation of `activeConfig` from the
`K8S_API_URL` and `K8S_API_TOKEN` environment variables (also the state
restored by `resetK8sClientConfig`). -/
def initialConfig (envBaseURL envToken : Option String) : InternalConfig :=
  { baseURL := jsOrStr envBaseURL ""
    token := jsOrStr envToken ""
    headers := []
    rejectUnauthorized := false
    configured := truthyStr envBaseURL }

/-- The argument of `configureK8sClient`: `baseURL` is required, the
rest optional. -/
structure K8sClientConfigInput where
  baseURL : String
  token : Option String
  headers : Option (List (String × String))
  rejectUnauthorized : Option Bool

/-- The function `configureK8sClient(config)`: set the base URL, mark the client
configured, and overwrite each optional field only when supplied. -/
def configureK8sClient (config : K8sClientConfigInput) (st : InternalConfig) :
    InternalConfig :=
  let st1 := { st with baseURL := config.baseURL, configured := true }
  let st2 := match config.token with
    | none => st1
    | some t => { st1 with token := t }
  let st3 := match config.headers with
    | none => st2
    | some hs => { st2 with headers := hs }
  match config.rejectUnauthorized with
  | none => st3
  | some b => { st3 with rejectUnauthorized := b }

/-- The resolved configuration returned by `getK8sClientConfig`. -/
structure K8sClientConfigR where
  baseURL : String
  token : String
  headers : List (String × String)
  rejectUnauthorized : Bool

/-- The error message thrown when a request is attempted before
configuration. -/
def notConfiguredMessage : String :=
  "K8s client not configured. Call configureK8sClient(\x7b baseURL: \"...\" \x7d) before making API calls, or set K8S_API_URL environment variable."

/-- The function `getK8sClientConfig()`: throw the descriptive configuration error
when the client was never configured, otherwise return the active
configuration. -/
def getK8sClientConfig (st : InternalConfig) : Except String K8sClientConfigR :=
  if st.configured then
    .ok ⟨st.baseURL, st.token, st.headers, st.rejectUnauthorized⟩
  else
    .error notConfiguredMessage

/-! ## Query-string encoding (`URLSearchParams`) -/

/-- A query-parameter value as passed by the generated client:
a string or a number (JS `String(value)` stringifies it). -/
inductive PVal where
  | str (s : String)
  | num (n : Nat)

/-- JS `String(value)` on the two query-parameter value shapes. -/
def pvalToString : PVal → String
  | .str s => s
  | .num n => toString n

/-- Uppercase hexadecimal digit of a value below 16. -/
def hexDigitChar (n : Nat) : Char :=
  if n < 10 then Char.ofNat (48 + n) else Char.ofNat (55 + n)

/-- Percent-encoding of one byte, `%XY` with uppercase hex. -/
def percentEncodeByte (b : Nat) : List Char :=
  ['%', hexDigitChar (b / 16), hexDigitChar (b % 16)]

/-- One byte under the `application/x-www-form-urlencoded` serializer
used by `URLSearchParams.toString()`: space becomes `+`; ASCII
alphanumerics and `*`, `-`, `.`, `_` pass through; everything else is
percent-encoded. -/
def formUrlByte (b : Nat) : List Char :=
  if b = 0x20 then ['+']
  else if b = 0x2A ∨ b = 0x2D ∨ b = 0x2E ∨ b = 0x5F ∨
      (0x30 ≤ b ∧ b ≤ 0x39) ∨ (0x41 ≤ b ∧ b ≤ 0x5A) ∨ (0x61 ≤ b ∧ b ≤ 0x7A) then
    [Char.ofNat b]
  else percentEncodeByte b

/-- UTF-8 bytes of one character. -/
def utf8Bytes (c : Char) : List Nat :=
  let n := c.toNat
  if n < 0x80 then [n]
  else if n < 0x800 then [0xC0 + n / 0x40, 0x80 + n % 0x40]
  else if n < 0x10000 then
    [0xE0 + n / 0x1000, 0x80 + (n / 0x40) % 0x40, 0x80 + n % 0x40]
  else
    [0xF0 + n / 0x40000, 0x80 + (n / 0x1000) % 0x40, 0x80 + (n / 0x40) % 0x40,
      0x80 + n % 0x40]

/-- Form-url-encoding of a whole string, byte by byte over its UTF-8
representation. -/
def formUrlEncode (s : String) : String :=
  String.mk (List.flatten (s.data.map (fun c => List.flatten ((utf8Bytes c).map formUrlByte))))

/-- Serialization `URLSearchParams.toString()` on an append-ordered list of pairs. -/
def serializeSearchParams (pairs : List (String × String)) : String :=
  String.intercalate "&" (pairs.map (fun p => formUrlEncode p.1 ++ "=" ++ formUrlEncode p.2))

/-- The `searchParams.append` loop of `customInstance`: entries whose
value is `undefined` or `null` are skipped, the rest are stringified. -/
def buildQueryPairs (params : List (String × Option PVal)) : List (String × String) :=
  params.filterMap (fun p => p.2.map (fun v => (p.1, pvalToString v)))

/-- The query string `customInstance` appends to the URL. -/
def buildQueryString (params : List (String × Option PVal)) : String :=
  serializeSearchParams (buildQueryPairs params)

/-! ## The React request transport (`customInstance`, react mutator) -/

/-- The request configuration orval passes to the mutator. -/
structure RequestConfigIn (D : Type) where
  url : String
  method : String
  params : Option (List (String × Option PVal))
  data : Option D
  headers : Option (List (String × String))

/-- The outgoing request handed to `fetch`: final URL, method, merged
headers, and body (serialisation of `data` left abstract; `none` models
an absent or falsy `data`, for which no body is set). -/
structure K8sRequest (D : Type) where
  url : String
  method : String
  headers : List (String × String)
  body : Option D

/-- The React transport `customInstance`, up to the `fetch` call whose
request it constructs: it first reads the configuration with
`getK8sClientConfig` — a configuration error is thrown here, before any
request object exists — then resolves the URL against the configured
base (the platform `new URL(config.url, clientConfig.baseURL)` is
abstracted by `resolveURL`), builds the headers by object spread
(`Content-Type`, then the Bearer header derived from a non-empty token,
then configured headers, then per-request headers, later entries
overwriting earlier ones), and appends the `URLSearchParams`-encoded
query string when it is non-empty. -/
def customInstance {D : Type} (resolveURL : String → String → String)
    (st : InternalConfig) (config : RequestConfigIn D) :
    Except String (K8sRequest D) :=
  match getK8sClientConfig st with
  | .error e => .error e
  | .ok clientConfig =>
      let url := resolveURL config.url clientConfig.baseURL
      let authHeaders : List (String × String) :=
        if clientConfig.token ≠ "" then
          [("Authorization", "Bearer " ++ clientConfig.token)]
        else []
      let headers :=
        objAssign
          (objAssign
            (objAssign [("Content-Type", "application/json")] authHeaders)
            clientConfig.headers)
          (config.headers.getD [])
      let fullUrl :=
        match config.params with
        | none => url
        | some ps =>
            let qs := buildQueryString ps
            if qs = "" then url else url ++ "?" ++ qs
      .ok { url := fullUrl, method := config.method, headers := headers, body := config.data }

/-- C4: with no `configureK8sClient` call and no `K8S_API_URL`
environment variable present at load, every request issued through the
React transport fails with the descriptive configuration error, before
any network request is constructed. -/
theorem customInstance_unconfigured_error {D : Type}
    (resolveURL : String → String → String) (envToken : Option String)
    (config : RequestConfigIn D) :
    customInstance resolveURL (initialConfig none envToken) config =
      .error notConfiguredMessage := rfl

/-! ## The generated convenience hooks (`generateReactHooks` template) -/

/-- The `ListQueryOptions` interface of the generated `hooks.ts`
(`continue` is a Lean keyword, hence `continueToken`). -/
structure ListQueryOptions where
  labelSelector : Option String
  fieldSelector : Option String
  limit : Option Nat
  continueToken : Option String

/-- The query-parameter object every generated convenience hook passes
to its underlying generated TanStack hook, per the `generateReactHooks`
template: `labelSelector: options?.labelSelector` and likewise for
`fieldSelector`, `limit` and `continue`. -/
def convenienceHookParams (options : Option ListQueryOptions) :
    List (String × Option PVal) :=
  [("labelSelector", (options.bind ListQueryOptions.labelSelector).map PVal.str),
   ("fieldSelector", (options.bind ListQueryOptions.fieldSelector).map PVal.str),
   ("limit", (options.bind ListQueryOptions.limit).map PVal.num),
   ("continue", (options.bind ListQueryOptions.continueToken).map PVal.str)]

/-- C8: a convenience wrapper invoked with `{labelSelector: "app=nginx"}`
forwards exactly that selector string to the low-level call's query
parameters, and the transport percent-encodes it into the request URL's
query string as `labelSelector=app%3Dnginx`. -/
theorem convenienceHook_labelSelector_forwarding
    (resolveURL : String → String → String) :
    getKey (convenienceHookParams (some ⟨some "app=nginx", none, none, none⟩))
        "labelSelector" = some (some (.str "app=nginx")) ∧
    buildQueryString (convenienceHookParams (some ⟨some "app=nginx", none, none, none⟩)) =
      "labelSelector=app%3Dnginx" ∧
    customInstance resolveURL
        (configureK8sClient ⟨"https://cluster.example.com", none, none, none⟩
          (initialConfig none none))
        { url := "/api/v1/namespaces/default/pods", method := "GET",
          params := some (convenienceHookParams (some ⟨some "app=nginx", none, none, none⟩)),
          data := (none : Option Unit), headers := none } =
      .ok { url := resolveURL "/api/v1/namespaces/default/pods"
              "https://cluster.example.com" ++ "?" ++ "labelSelector=app%3Dnginx",
            method := "GET",
            headers := [("Content-Type", "application/json")],
            body := none } := by
  refine ⟨rfl, rfl, rfl⟩

/-! ## Retry middleware (`K8sRetryInterceptor` / `createK8sRetryInterceptor`) -/

/-- Substring search on character lists. -/
def listContainsSub (sub : List Char) : List Char → Bool
  | [] => sub.isEmpty
  | c :: cs => sub.isPrefixOf (c :: cs) || listContainsSub sub cs

/-- JS `s.includes(sub)`. -/
def strIncludes (s sub : String) : Bool :=
  listContainsSub sub.data s.data

/-- The retry configuration record, all fields resolved. -/
structure RetryConfigR where
  maxRetries : Nat
  initialDelay : Nat
  maxDelay : Nat
  backoffMultiplier : Nat
  retryableStatusCodes : List Nat

/-- The `DEFAULT_RETRY_CONFIG` of the retry interceptor module. -/
def DEFAULT_RETRY_CONFIG : RetryConfigR :=
  { maxRetries := 3
    initialDelay := 1000
    maxDelay := 30000
    backoffMultiplier := 2
    retryableStatusCodes := [408, 429, 500, 502, 503, 504] }

/-- The delay callback's URL guard: the request is considered a
Kubernetes API call when `req.url.startsWith('http') &&
req.url.includes('/api/')` (its negation throws, aborting the retry). -/
def retryUrlEligible (url : String) : Bool :=
  strStartsWith url "http" && strIncludes url "/api/"

/-- The exponential backoff delay computed by the delay callback:
`Math.min(initialDelay * backoffMultiplier^(retryCount-1), maxDelay)`. -/
def backoffDelay (cfg : RetryConfigR) (retryCount : Nat) : Nat :=
  min (cfg.initialDelay * cfg.backoffMultiplier ^ (retryCount - 1)) cfg.maxDelay

/-- An Angular `HttpClient` response errors exactly when the status is
outside the 2xx range. -/
def isSuccessStatus (s : Nat) : Bool :=
  (200 ≤ s) && (s < 300)

/-- Outcome of a retried request together with the number of transport
calls made. -/
inductive RetryResult where
  | success (status : Nat) (attempts : Nat)
  | failure (status : Nat) (attempts : Nat)
deriving DecidableEq

/-- The attempt count of a retry outcome. -/
def attemptsOf : RetryResult → Nat
  | .success _ n => n
  | .failure _ n => n

/-- One run of the rxjs `retry({count, delay})` pipeline of the retry
interceptor against a transport whose successive answers are the status
codes in `responses`.  On an error the operator first checks the retry
budget, then the delay callback throws unless the status is retryable
and the URL passes the API-call guard; otherwise the source is
re-subscribed (after the backoff timer, which has no observable effect
here) with one retry consumed. -/
def runRetry (cfg : RetryConfigR) (url : String) :
    List Nat → Nat → RetryResult
  | [], _ => .failure 0 0
  | s :: rest, retriesLeft =>
      if isSuccessStatus s then .success s 1
      else if retriesLeft = 0 then .failure s 1
      else if ¬(cfg.retryableStatusCodes.contains s = true) then .failure s 1
      else if ¬(retryUrlEligible url = true) then .failure s 1
      else
        match runRetry cfg url rest (retriesLeft - 1) with
        | .success st n => .success st (n + 1)
        | .failure st n => .failure st (n + 1)

/-- The `intercept` method of the retry interceptor: run the request through
`retry` with `count: maxRetries`. -/
def interceptWithRetry (cfg : RetryConfigR) (url : String) (responses : List Nat) :
    RetryResult :=
  runRetry cfg url responses cfg.maxRetries

theorem runRetry_cons_success (cfg : RetryConfigR) (url : String) (s : Nat)
    (rest : List Nat) (n : Nat) (hs : isSuccessStatus s = true) :
    runRetry cfg url (s :: rest) n = .success s 1 := by
  cases n <;> simp [runRetry, hs]

theorem runRetry_cons_stop (cfg : RetryConfigR) (url : String) (s : Nat)
    (rest : List Nat) (n : Nat) (hs : isSuccessStatus s = false)
    (hc : cfg.retryableStatusCodes.contains s = false) :
    runRetry cfg url (s :: rest) (n + 1) = .failure s 1 := by
  unfold runRetry
  rw [if_neg (by simp [hs]), if_neg (Nat.succ_ne_zero n), if_pos (by simpa using hc)]

theorem runRetry_cons_retryable (cfg : RetryConfigR) (url : String) (s : Nat)
    (rest : List Nat) (n : Nat) (hs : isSuccessStatus s = false)
    (hc : cfg.retryableStatusCodes.contains s = true)
    (hu : retryUrlEligible url = true) :
    runRetry cfg url (s :: rest) (n + 1) =
      (match runRetry cfg url rest n with
       | .success st k => .success st (k + 1)
       | .failure st k => .failure st (k + 1)) := by
  conv_lhs => unfold runRetry
  rw [if_neg (by simp [hs]), if_neg (Nat.succ_ne_zero n), if_neg (by simpa using hc),
    if_neg (by simp [hu])]
  simp only [Nat.add_sub_cancel]

theorem one_le_attempts_runRetry (cfg : RetryConfigR) (url : String) (x : Nat)
    (xs : List Nat) (n : Nat) : 1 ≤ attemptsOf (runRetry cfg url (x :: xs) n) := by
  by_cases hs : isSuccessStatus x
  · rw [runRetry_cons_success cfg url x xs n hs]
    simp [attemptsOf]
  · have hs' : isSuccessStatus x = false := by simpa using hs
    cases n with
    | zero =>
        unfold runRetry
        rw [if_neg (by simp [hs']), if_pos rfl]
        simp [attemptsOf]
    | succ m =>
        by_cases hc : cfg.retryableStatusCodes.contains x
        · by_cases hu : retryUrlEligible url
          · rw [runRetry_cons_retryable cfg url x xs m hs' hc hu]
            cases runRetry cfg url xs m <;> simp [attemptsOf]
          · unfold runRetry
            rw [if_neg (by simp [hs']), if_neg (Nat.succ_ne_zero m),
              if_neg (by simpa using hc), if_pos hu]
            simp [attemptsOf]
        · rw [runRetry_cons_stop cfg url x xs m hs' (by simpa using hc)]
          simp [attemptsOf]

/-- C5 counterexample: a request to the relative URL `/api/v1/pods`
(which does not start with `http`) answered with the retryable status
503 is not retried by the default retry middleware — the caller gets
the failure after a single transport call, refuting "retries if and
only if the status is in the retryable set". -/
theorem retry_not_iff_status_counterexample :
    DEFAULT_RETRY_CONFIG.retryableStatusCodes.contains 503 = true ∧
    interceptWithRetry DEFAULT_RETRY_CONFIG "/api/v1/pods" [503, 200] =
      .failure 503 1 := by
  decide

/-- C5 (amended): for requests the middleware recognises as Kubernetes
API calls (URL starts with `http` and contains `/api/`), the default
configuration retries a failed attempt exactly when its status is in
{408, 429, 500, 502, 503, 504}: a transport answering 503, 503, 503,
200 yields the successful result after exactly 4 transport calls, one
answering 404 fails after exactly one call, and in general a first
failing status is retried iff it is in the retryable set. -/
theorem retry_default_behaviour (url : String) (h : retryUrlEligible url = true)
    (s r : Nat) (rest more : List Nat) (hs : isSuccessStatus s = false) :
    interceptWithRetry DEFAULT_RETRY_CONFIG url [503, 503, 503, 200] =
      .success 200 4 ∧
    interceptWithRetry DEFAULT_RETRY_CONFIG url (404 :: more) = .failure 404 1 ∧
    (2 ≤ attemptsOf (interceptWithRetry DEFAULT_RETRY_CONFIG url (s :: r :: rest)) ↔
      DEFAULT_RETRY_CONFIG.retryableStatusCodes.contains s = true) := by
  have e0 : runRetry DEFAULT_RETRY_CONFIG url [200] 0 = .success 200 1 :=
    runRetry_cons_success _ _ _ _ _ (by decide)
  have e1 : runRetry DEFAULT_RETRY_CONFIG url [503, 200] 1 = .success 200 2 := by
    rw [runRetry_cons_retryable _ _ _ _ 0 (by decide) (by decide) h, e0]
  have e2 : runRetry DEFAULT_RETRY_CONFIG url [503, 503, 200] 2 = .success 200 3 := by
    rw [runRetry_cons_retryable _ _ _ _ 1 (by decide) (by decide) h, e1]
  have e3 : runRetry DEFAULT_RETRY_CONFIG url [503, 503, 503, 200] 3 = .success 200 4 := by
    rw [runRetry_cons_retryable _ _ _ _ 2 (by decide) (by decide) h, e2]
  refine ⟨e3, ?_, ?_⟩
  · exact runRetry_cons_stop _ _ _ _ 2 (by decide) (by decide)
  · by_cases hc : DEFAULT_RETRY_CONFIG.retryableStatusCodes.contains s
    · rw [show interceptWithRetry DEFAULT_RETRY_CONFIG url (s :: r :: rest) =
          runRetry DEFAULT_RETRY_CONFIG url (s :: r :: rest) 3 from rfl,
        show (3 : Nat) = 2 + 1 from rfl,
        runRetry_cons_retryable _ _ _ _ 2 hs hc h]
      have hone := one_le_attempts_runRetry DEFAULT_RETRY_CONFIG url r rest 2
      cases hm : runRetry DEFAULT_RETRY_CONFIG url (r :: rest) 2 with
      | success st k =>
          rw [hm] at hone
          simp only [attemptsOf] at hone
          refine iff_of_true ?_ hc
          simp only [attemptsOf]
          omega
      | failure st k =>
          rw [hm] at hone
          simp only [attemptsOf] at hone
          refine iff_of_true ?_ hc
          simp only [attemptsOf]
          omega
    · have hstop : interceptWithRetry DEFAULT_RETRY_CONFIG url (s :: r :: rest) =
          .failure s 1 :=
        runRetry_cons_stop _ _ _ _ 2 hs (by simpa using hc)
      rw [hstop]
      refine iff_of_false ?_ hc
      simp only [attemptsOf]
      omega

/-- Witness for the amended C5 at the concrete API URL
`https://localhost:6443/api/v1/pods` and first status 500. -/
theorem retry_default_behaviour_witness :
    interceptWithRetry DEFAULT_RETRY_CONFIG "https://localhost:6443/api/v1/pods"
        [503, 503, 503, 200] = .success 200 4 ∧
    interceptWithRetry DEFAULT_RETRY_CONFIG "https://localhost:6443/api/v1/pods"
        (404 :: []) = .failure 404 1 ∧
    (2 ≤ attemptsOf (interceptWithRetry DEFAULT_RETRY_CONFIG
        "https://localhost:6443/api/v1/pods" (500 :: 200 :: [])) ↔
      DEFAULT_RETRY_CONFIG.retryableStatusCodes.contains 500 = true) :=
  retry_default_behaviour "https://localhost:6443/api/v1/pods" (by decide)
    500 200 [] [] (by decide)

/-! ## Error-translation middleware (`K8sErrorHandlingInterceptor` /
`k8sErrorHandlingInterceptor`, `parseK8sError`) -/

/-- The `error` body attached to an `HttpErrorResponse`: either a parsed
JSON object (of which the interceptor reads `kind`, `message`, `reason`
and `details`) or a non-object value such as a plain string. -/
inductive ErrVal (V : Type) where
  | obj (kind : Option String) (message : Option String) (reason : Option String)
      (details : Option V)
  | str (s : String)
deriving DecidableEq

/-- The slice of an Angular `HttpErrorResponse` the interceptor reads. -/
structure HttpErrorResponseM (V : Type) where
  status : Nat
  statusText : String
  message : String
  error : Option (ErrVal V)
deriving DecidableEq

/-- The fields of the `K8sApiError` class. -/
structure K8sApiErrorM (V : Type) where
  message : String
  statusCode : Nat
  reason : Option String
  details : Option V
deriving DecidableEq

/-- The fallback branch of `parseK8sError`:
`error.error?.message || error.message || 'HTTP <status>: <statusText>'`,
with no reason and no details. -/
def k8sFallbackError {V : Type} (error : HttpErrorResponseM V) : K8sApiErrorM V :=
  let errBodyMessage : Option String :=
    match error.error with
    | some (.obj _ msg _ _) => msg
    | _ => none
  { message := jsOrStr errBodyMessage
      (jsOrStr (some error.message)
        ("HTTP " ++ toString error.status ++ ": " ++ error.statusText))
    statusCode := error.status
    reason := none
    details := none }

/-- The function `parseK8sError`: when the response body is an object whose `kind` is
exactly `Status`, build a `K8sApiError` carrying the body's message
(with a statusText-based default), the HTTP status code, and the body's
`reason` and `details`; otherwise fall back to a `K8sApiError` with only
a message and the status code. -/
def parseK8sError {V : Type} (error : HttpErrorResponseM V) : K8sApiErrorM V :=
  match error.error with
  | some (.obj kind msg reason details) =>
      if kind = some "Status" then
        { message := jsOrStr msg ("Kubernetes API error: " ++ error.statusText)
          statusCode := error.status
          reason := reason
          details := details }
      else k8sFallbackError error
  | _ => k8sFallbackError error

/-- What the error-translation interceptor re-throws. -/
inductive InterceptedError (V : Type) where
  | k8s (e : K8sApiErrorM V)
  | passthrough (e : HttpErrorResponseM V)
deriving DecidableEq

/-- The `catchError` body of the error-handling interceptor: errors of
requests whose URL does not start with `http` or contains `/api/` are
translated by `parseK8sError`; all others pass through unchanged. -/
def k8sErrorHandlingIntercept {V : Type} (reqUrl : String)
    (error : HttpErrorResponseM V) : InterceptedError V :=
  if !strStartsWith reqUrl "http" || strIncludes reqUrl "/api/" then
    .k8s (parseK8sError error)
  else
    .passthrough error

/-- Does the response body match the structured Kubernetes error shape
(an object with `kind` equal to `Status`)? -/
def isStructuredStatus {V : Type} (err : HttpErrorResponseM V) : Bool :=
  match err.error with
  | some (.obj kind _ _ _) => kind = some "Status"
  | _ => false

/-- C6 counterexample: on a Kubernetes API request whose error body is a
plain string (not the structured shape), the middleware still re-throws
a `K8sApiError` (with a fallback message and no reason/details) instead
of surfacing the generic transport error unchanged. -/
theorem errorHandling_unstructured_counterexample :
    k8sErrorHandlingIntercept "https://localhost:6443/api/v1/pods"
        ({ status := 500, statusText := "Internal Server Error",
           message := "Http failure response", error := some (.str "boom") } :
          HttpErrorResponseM Unit) =
      .k8s { message := "Http failure response", statusCode := 500,
             reason := none, details := none } ∧
    k8sErrorHandlingIntercept "https://localhost:6443/api/v1/pods"
        ({ status := 500, statusText := "Internal Server Error",
           message := "Http failure response", error := some (.str "boom") } :
          HttpErrorResponseM Unit) ≠
      .passthrough { status := 500, statusText := "Internal Server Error",
                     message := "Http failure response", error := some (.str "boom") } := by
  refine ⟨rfl, ?_⟩
  decide

/-- C6 (amended): on every request the middleware treats as a
Kubernetes API call, a structured error body (`kind` = `Status`) is
re-thrown as a `K8sApiError` carrying the HTTP status code and the
body's reason and details, and a body that does not match the
structured shape is still re-thrown as a `K8sApiError` carrying only a
fallback message and the status code (no reason, no details) — not as
the generic transport error. -/
theorem errorHandling_translation {V : Type} (reqUrl : String)
    (err : HttpErrorResponseM V)
    (h : (!strStartsWith reqUrl "http" || strIncludes reqUrl "/api/") = true) :
    (∀ kind msg reason details,
      err.error = some (.obj kind msg reason details) → kind = some "Status" →
      k8sErrorHandlingIntercept reqUrl err =
        .k8s { message := jsOrStr msg ("Kubernetes API error: " ++ err.statusText),
               statusCode := err.status, reason := reason, details := details }) ∧
    (isStructuredStatus err = false →
      k8sErrorHandlingIntercept reqUrl err = .k8s (k8sFallbackError err) ∧
      (k8sFallbackError err).statusCode = err.status ∧
      (k8sFallbackError err).reason = none ∧
      (k8sFallbackError err).details = none) := by
  constructor
  · intro kind msg reason details heq hkind
    subst hkind
    unfold k8sErrorHandlingIntercept
    rw [if_pos h]
    unfold parseK8sError
    rw [heq]
    simp
  · intro hns
    unfold k8sErrorHandlingIntercept
    rw [if_pos h]
    refine ⟨?_, rfl, rfl, rfl⟩
    unfold parseK8sError
    unfold isStructuredStatus at hns
    cases herr : err.error with
    | none => rfl
    | some v =>
        cases v with
        | str s => rfl
        | obj kind msg reason details =>
            rw [herr] at hns
            simp only [decide_eq_false_iff_not] at hns
            show InterceptedError.k8s
                (if kind = some "Status" then
                  { message := jsOrStr msg ("Kubernetes API error: " ++ err.statusText)
                    statusCode := err.status, reason := reason, details := details }
                 else k8sFallbackError err) =
              InterceptedError.k8s (k8sFallbackError err)
            rw [if_neg hns]

/-- Witness for the amended C6 at a concrete structured 404 `Status`
body on an API request. -/
theorem errorHandling_translation_witness :
    k8sErrorHandlingIntercept "https://localhost:6443/api/v1/pods"
        ({ status := 404, statusText := "Not Found", message := "m",
           error := some (.obj (some "Status") (some "pods not found")
             (some "NotFound") none) } : HttpErrorResponseM Unit) =
      .k8s { message := jsOrStr (some "pods not found")
               ("Kubernetes API error: " ++ "Not Found"),
             statusCode := 404, reason := some "NotFound", details := none } :=
  (errorHandling_translation "https://localhost:6443/api/v1/pods" _ (by decide)).1
    (some "Status") (some "pods not found") (some "NotFound") none rfl rfl

end K8sWeb
